import Mathlib

/-!
Shallow embedding of the log-aggregation core of
`src/a2a-protocol/a2a-advisory-trading/streamlit_app.py`, together with
theorems settling the behavioural claims about it.

Conventions of the embedding:
* Python dicts for CloudWatch events become the `Event` structure; enriched
  display records become `LogEntry`.
* The Python `set` `self.seen_events` is modelled as a `List String`
  (only membership and insertion are used, so list membership is faithful).
* `time.sleep` calls are not executed; instead every loop that sleeps is
  modelled by `chunkedWait`, which counts how many `time.sleep(0.1)` calls
  the loop body performs given the value of `self.is_running()` at each check.
* `datetime.fromtimestamp(.../1000).strftime(...)` and
  `datetime.now().strftime(...)` are local-timezone and wall-clock dependent,
  so they are passed in as parameters (`fmt : Int → String`, `nowStr : String`).
* The remote `filter_log_events` call is an oracle parameter: for the
  streaming path a `ℕ → FetchOutcome` giving the outcome of each successive
  attempt, for the batch path a `BatchRequest → Except String (List Event)`.
* Python `int()` on the nonnegative rationals that occur here is `⌊·⌋`
  (`pyInt` below); `1.5 ** n` is `(3/2 : ℚ) ^ n`.
-/

namespace StreamlitApp

/-- A raw CloudWatch log event as used by the app: `event['timestamp']`
(milliseconds since epoch) and `event['message']`. -/
structure Event where
  timestamp : Int
  message : String
deriving DecidableEq, Repr

/-- An enriched log record as stored in `logs_buffer` / `current_logs`:
`{'timestamp': ..., 'group': ..., 'message': ..., 'full_text': ...}`. -/
structure LogEntry where
  timestamp : String
  group : String
  message : String
  full_text : String
deriving DecidableEq, Repr

/-- An item placed on `self.log_queue` by `stream_log_group`. -/
structure QueueItem where
  timestamp : Int
  group : String
  message : String
deriving DecidableEq, Repr

/-- Python `int(q)` for the rationals arising here (truncation toward zero). -/
def pyInt (q : ℚ) : Int := if 0 ≤ q then ⌊q⌋ else -⌊-q⌋

/-- Prefix test on character lists (`leadMatch n h` iff `n` is a leading
segment of `h`); used to model Python's substring operator. -/
def leadMatch : List Char → List Char → Bool
  | [], _ => true
  | _ :: _, [] => false
  | a :: as, b :: bs => a = b && leadMatch as bs

/-- `subMatch n h` iff `n` occurs as a contiguous segment of `h`. -/
def subMatch (needle : List Char) : List Char → Bool
  | [] => leadMatch needle []
  | c :: t => leadMatch needle (c :: t) || subMatch needle t

/-- Python `needle in hay` on strings. -/
def strContains (hay needle : String) : Bool := subMatch needle.toList hay.toList

/-- Python `s.strip()`: drop whitespace from both ends. -/
def pyStrip (s : String) : String :=
  String.mk (((s.toList.dropWhile Char.isWhitespace).reverse.dropWhile
    Char.isWhitespace).reverse)

/-- Python `log_group.split('/')[-1]`: the segment after the last `'/'`
(or the whole string when there is none). -/
def groupNameOf (g : String) : String :=
  String.mk (g.toList.foldl (fun acc c => if c = '/' then [] else acc ++ [c]) [])

/-- Lexicographic `<` on strings by code point, as Python compares the
`'%Y-%m-%d %H:%M:%S'` timestamp strings. -/
def charListLt : List Char → List Char → Bool
  | [], [] => false
  | [], _ :: _ => true
  | _ :: _, [] => false
  | a :: as, b :: bs =>
    if a.val < b.val then true else if b.val < a.val then false else charListLt as bs

/-- Python `a < b` on strings. -/
def pyStrLt (a b : String) : Bool := charListLt a.toList b.toList

/-- `self.max_retries = 5` (line 97). -/
def maxRetries : ℕ := 5

/-- `backoff_time = min(1.5 ** self.retry_count, 2)` (line 115). -/
def errorBackoffTime (retry_count : ℕ) : ℚ := min ((3/2 : ℚ) ^ retry_count) 2

/-- `sleep_time = min(0.5 * (1.5 ** empty_responses), 2)` (line 183). -/
def emptyBackoffTime (empty_responses : ℕ) : ℚ :=
  min ((1/2 : ℚ) * (3/2 : ℚ) ^ empty_responses) 2

/-- The chunked-sleep loop pattern
`for _ in range(n): if not self.is_running(): <exit>; time.sleep(0.1)`.
`running k` is the value of `self.is_running()` at the `k`-th check.
Returns the number of `time.sleep(0.1)` calls performed and whether the
loop exited early through the stop check. -/
def chunkedWait : ℕ → (ℕ → Bool) → ℕ × Bool
  | 0, _ => (0, false)
  | n + 1, running =>
    if running 0 then
      let r := chunkedWait n (fun k => running (k + 1))
      (r.1 + 1, r.2)
    else (0, true)

/-- `int(backoff_time * 10)`: the number of iterations of the chunked
error-backoff loop of `get_log_events` (line 116). -/
def errorBackoffChunks (retry_count : ℕ) : ℕ :=
  (pyInt (errorBackoffTime retry_count * 10)).toNat

/-- `event_id = f"{event['timestamp']}-{event['message']}"` (line 132). -/
def eventId (e : Event) : String := toString e.timestamp ++ "-" ++ e.message

/-- The dedup loop of `get_log_events` (lines 130-135): walk the fetched
events in order, keep those whose id is not in `seen_events`, inserting the
id of every kept event.  Returns the updated seen set and the kept events. -/
def dedupEvents : List String → List Event → List String × List Event
  | seen, [] => (seen, [])
  | seen, e :: rest =>
    if eventId e ∈ seen then dedupEvents seen rest
    else
      let p := dedupEvents (eventId e :: seen) rest
      (p.1, e :: p.2)

/-- The synthetic error record built on retry exhaustion in
`get_log_events` (lines 150-155). -/
def streamErrorEntry (nowStr log_group e : String) : LogEntry :=
  { timestamp := nowStr
    group := "ERROR"
    message := "Failed to fetch logs from " ++ log_group ++ ": " ++ e
    full_text := "[ERROR] Failed to fetch logs from " ++ log_group ++ ": " ++ e }

/-- `if 'current_logs' in st.session_state: st.session_state.current_logs.append(error_log)`
(lines 149-156); `none` models the key being absent. -/
def appendErrorLog : Option (List LogEntry) → LogEntry → Option (List LogEntry)
  | none, _ => none
  | some logs, entry => some (logs ++ [entry])

/-- Outcome of one `filter_log_events` call in the streaming path: the event
list of the response, or the message of the raised exception. -/
abbrev FetchOutcome := Except String (List Event)

/-- The mutable fields of `StreamlitLogStreamReader` touched by
`get_log_events`: `seen_events`, `retry_count`, the session-state list
`current_logs` (absent ↦ `none`), and the stop flag (`running` =
`not self._stop_event.is_set()`, held fixed within one call). -/
structure ReaderState where
  seen_events : List String
  retry_count : ℕ
  current_logs : Option (List LogEntry)
  running : Bool
deriving DecidableEq, Repr

/-- What one (outermost) call of `get_log_events` did: the reader state on
return, the returned event list, the duration in seconds of each error-backoff
wait performed (one entry per call frame that entered the backoff loop), and
the number of `filter_log_events` attempts consumed. -/
structure CallResult where
  state : ReaderState
  events : List Event
  sleeps : List ℚ
  attempts : ℕ
deriving DecidableEq, Repr

/-- `StreamlitLogStreamReader.get_log_events` (lines 112-157).
`fetch i` is the outcome of the `i`-th `filter_log_events` attempt; the
recursive retry call (line 146) consumes the next index.  The chunked
error-backoff loop (lines 114-119) runs before the fetch whenever
`retry_count > 0` and returns `[]` early when the stop flag is observed;
on success `retry_count` resets to 0 and the response is deduplicated; on
failure `retry_count` is incremented and the call retries itself while
`retry_count <= max_retries`, after which one synthetic error record is
appended to `current_logs` (when present) and `[]` is returned. -/
def get_log_events (nowStr log_group : String) (fetch : ℕ → FetchOutcome)
    (s : ReaderState) (i : ℕ) : CallResult :=
  let n : ℕ := if 0 < s.retry_count then errorBackoffChunks s.retry_count else 0
  let w := chunkedWait n (fun _ => s.running)
  let pre : List ℚ := if 0 < s.retry_count then [(w.1 : ℚ) / 10] else []
  if w.2 then
    { state := s, events := [], sleeps := pre, attempts := 0 }
  else
    match fetch i with
    | .ok events =>
      let d := dedupEvents s.seen_events events
      { state := { s with retry_count := 0, seen_events := d.1 }
        events := d.2, sleeps := pre, attempts := 1 }
    | .error e =>
      let s1 := { s with retry_count := s.retry_count + 1 }
      if s1.retry_count ≤ maxRetries then
        let r := get_log_events nowStr log_group fetch s1 (i + 1)
        { state := r.state, events := r.events
          sleeps := pre ++ r.sleeps, attempts := r.attempts + 1 }
      else
        { state := { s1 with
            current_logs := appendErrorLog s1.current_logs
              (streamErrorEntry nowStr log_group e) }
          events := [], sleeps := pre, attempts := 1 }
termination_by maxRetries + 1 - s.retry_count
decreasing_by simp only [maxRetries] at *; omega

/-- A session fragment: `k` successive calls of `get_log_events`, threading
the reader state and the fetch-attempt index, collecting the returned
events in order.  Returns (final state, all returned events, next index). -/
def runCalls (nowStr log_group : String) (fetch : ℕ → FetchOutcome) :
    ℕ → ReaderState → ℕ → ReaderState × List Event × ℕ
  | 0, s, i => (s, [], i)
  | k + 1, s, i =>
    let r := get_log_events nowStr log_group fetch s i
    let rest := runCalls nowStr log_group fetch k r.state (i + r.attempts)
    (rest.1, r.events ++ rest.2.1, rest.2.2)

/-- All events delivered by successful fetch outcomes at attempt indices
`i, i+1, ..., j-1`. -/
def fetchedEvents (fetch : ℕ → FetchOutcome) (i j : ℕ) : List Event :=
  (List.range (j - i)).flatMap fun k =>
    match fetch (i + k) with
    | .ok evs => evs
    | .error _ => []

/-- What one iteration of the `while self.is_running()` body of
`stream_log_group` (lines 163-187) did, after its `get_log_events` call
returned `events`: the updated local `last_timestamp` and
`empty_responses`, the items put on `self.log_queue`, and the total
duration in seconds of the `time.sleep(0.1)` calls of the iteration. -/
structure StreamIterResult where
  last_timestamp : Int
  empty_responses : ℕ
  queued : List QueueItem
  sleepSeconds : ℚ
deriving DecidableEq, Repr

/-- One iteration of the loop body of
`StreamlitLogStreamReader.stream_log_group` (lines 163-187), given the
event list `events` returned by `get_log_events`.  With events: push each
onto the queue, advance `last_timestamp` to `max(last_timestamp,
event['timestamp'] + 1)`, reset `empty_responses`, and pace with the
chunked `for _ in range(5): ... time.sleep(0.1)` loop.  Without events:
increment `empty_responses`, compute `sleep_time = min(0.5 *
(1.5 ** empty_responses), 2)`, and sleep it chunked in 0.1s steps.
`running k` is the stop-flag value at the `k`-th check of the chunked loop. -/
def stream_log_group_iter (log_group : String) (events : List Event)
    (running : ℕ → Bool) (last_timestamp : Int) (empty_responses : ℕ) :
    StreamIterResult :=
  if events ≠ [] then
    let queued := events.map fun e =>
      { timestamp := e.timestamp, group := log_group
        message := pyStrip e.message : QueueItem }
    let lt := events.foldl (fun acc e => max acc (e.timestamp + 1)) last_timestamp
    let w := chunkedWait 5 running
    { last_timestamp := lt, empty_responses := 0, queued := queued
      sleepSeconds := (w.1 : ℚ) / 10 }
  else
    let er := empty_responses + 1
    let sleep_time := emptyBackoffTime er
    let w := chunkedWait (pyInt (sleep_time * 10)).toNat running
    { last_timestamp := last_timestamp, empty_responses := er, queued := []
      sleepSeconds := (w.1 : ℚ) / 10 }

/-- The enrichment performed by `update_logs_display` (lines 198-206) on a
queue item; the timestamp formatter is a parameter (see module comment). -/
def displayEntryOfItem (fmt : Int → String) (q : QueueItem) : LogEntry :=
  let timestamp := fmt q.timestamp
  let group_name := groupNameOf q.group
  { timestamp := timestamp, group := group_name, message := q.message
    full_text := "[" ++ timestamp ++ "] [" ++ group_name ++ "] " ++ q.message }

/-- The buffer update of `update_logs_display` (lines 207-211): append one
enriched entry to `self.logs_buffer`, then
`if len(self.logs_buffer) > 200: self.logs_buffer = self.logs_buffer[-200:]`. -/
def update_logs_display_step (logs_buffer : List LogEntry) (entry : LogEntry) :
    List LogEntry :=
  let b := logs_buffer ++ [entry]
  if 200 < b.length then b.drop (b.length - 200) else b

/-- `if len(st.session_state.current_logs) > 1000:
st.session_state.current_logs = st.session_state.current_logs[-1000:]`
(lines 347-348). -/
def truncate_current_logs (logs : List LogEntry) : List LogEntry :=
  if 1000 < logs.length then logs.drop (logs.length - 1000) else logs

/-- The most recent `n` elements of a list, in order (`l[-n:]` when
`len(l) > n`, else `l`); used to state the FIFO-eviction claims. -/
def lastN (n : ℕ) (l : List α) : List α := l.drop (l.length - n)

/-- The `kwargs` dict built by `fetch_recent_logs` for one
`filter_log_events` call (lines 301-309). -/
structure BatchRequest where
  logGroupName : String
  startTime : Int
  endTime : Int
  limit : ℕ
  filterPattern : Option String
deriving DecidableEq, Repr

/-- Python truthiness of the optional `task_id` (`if task_id:`): `None`
and the empty string are falsy. -/
def pyTruthy : Option String → Bool
  | none => false
  | some s => !s.isEmpty

/-- The request `fetch_recent_logs` issues for one log group
(lines 301-309): always `limit = 100`, with `filterPattern = task_id`
only when `task_id` is truthy. -/
def batchRequest (startTime endTime : Int) (task_id : Option String)
    (log_group : String) : BatchRequest :=
  { logGroupName := log_group, startTime := startTime, endTime := endTime
    limit := 100
    filterPattern := if pyTruthy task_id then task_id else none }

/-- The four hard-coded log groups (lines 284-289 and 87-92), parameterised
by the `APP_NAME`/`ENV_NAME` environment values. -/
def logGroups (app env : String) : List String :=
  [ "/aws/lambda/" ++ app ++ "-" ++ env ++ "-PortfolioManagerAgent"
  , "/aws/lambda/" ++ app ++ "-" ++ env ++ "-MarketAnalysisAgent"
  , "/aws/lambda/" ++ app ++ "-" ++ env ++ "-RiskAssessmentAgent"
  , "/aws/lambda/" ++ app ++ "-" ++ env ++ "-TradeExecutionAgent" ]

/-- All requests one `fetch_recent_logs` call issues. -/
def batchRequests (app env : String) (startTime endTime : Int)
    (task_id : Option String) : List BatchRequest :=
  (logGroups app env).map (batchRequest startTime endTime task_id)

/-- The enrichment of one fetched event in `fetch_recent_logs`
(lines 313-321). -/
def entryOfEvent (fmt : Int → String) (log_group : String) (e : Event) :
    LogEntry :=
  let timestamp := fmt e.timestamp
  let group_name := groupNameOf log_group
  { timestamp := timestamp, group := group_name, message := pyStrip e.message
    full_text := "[" ++ timestamp ++ "] [" ++ group_name ++ "] " ++
      pyStrip e.message }

/-- The per-group error record of `fetch_recent_logs` (lines 327-332). -/
def batchErrorEntry (nowStr log_group e : String) : LogEntry :=
  { timestamp := nowStr
    group := "ERROR"
    message := "Failed to fetch from " ++ log_group ++ ": " ++ e
    full_text := "[ERROR] Failed to fetch from " ++ log_group ++ ": " ++ e }

/-- The entries one log group contributes to `new_logs` in
`fetch_recent_logs` (lines 298-333): on success, one enriched entry per
event of the response; on an exception containing
`"ResourceNotFoundException"`, nothing; on any other exception, one error
record. -/
def groupEntries (fmt : Int → String) (nowStr : String)
    (respond : BatchRequest → Except String (List Event))
    (startTime endTime : Int) (task_id : Option String) (log_group : String) :
    List LogEntry :=
  match respond (batchRequest startTime endTime task_id log_group) with
  | .ok evs => evs.map (entryOfEvent fmt log_group)
  | .error e =>
    if strContains e "ResourceNotFoundException" then []
    else [batchErrorEntry nowStr log_group e]

/-- Stable insertion by the string field `timestamp`, modelling
`new_logs.sort(key=lambda x: x['timestamp'])` (line 336).  Only the fact
that the result is a permutation of the input is used by the theorems. -/
def insertByTs (e : LogEntry) : List LogEntry → List LogEntry
  | [] => [e]
  | x :: xs => if pyStrLt e.timestamp x.timestamp then e :: x :: xs
               else x :: insertByTs e xs

/-- `new_logs.sort(key=lambda x: x['timestamp'])` (line 336). -/
def sortByTs (l : List LogEntry) : List LogEntry := l.foldr insertByTs []

/-- Result of `fetch_recent_logs`: the updated
`st.session_state.current_logs` and the returned `len(unique_new_logs)`. -/
structure BatchResult where
  current_logs : List LogEntry
  ret : ℕ
deriving DecidableEq, Repr

/-- `fetch_recent_logs` (lines 280-350).  `endTime` is `int(time.time() *
1000)` at the call; `startTime0 = None` defaults to the last five minutes
(lines 292-294).  For each of the four log groups, fetch with `limit=100`
(and `filterPattern` when `task_id` is truthy), enrich events, convert
non-`ResourceNotFoundException` failures to error records; then sort the
candidates by timestamp string, drop those whose `full_text` already occurs
in `current_logs`, append the survivors, truncate to the last 1000, and
return the number of survivors. -/
def fetch_recent_logs (fmt : Int → String) (nowStr app env : String)
    (respond : BatchRequest → Except String (List Event))
    (startTime0 : Option Int) (endTime : Int) (task_id : Option String)
    (current_logs : List LogEntry) : BatchResult :=
  let startTime := startTime0.getD (endTime - 5 * 60 * 1000)
  let new_logs := (logGroups app env).flatMap
    (groupEntries fmt nowStr respond startTime endTime task_id)
  let sorted := sortByTs new_logs
  let existing_texts := current_logs.map (fun l => l.full_text)
  let unique_new_logs := sorted.filter fun l => !(existing_texts.contains l.full_text)
  { current_logs := truncate_current_logs (current_logs ++ unique_new_logs)
    ret := unique_new_logs.length }

/-! ### Backoff arithmetic -/

theorem errorBackoffTime_one : errorBackoffTime 1 = 3/2 := by
  rw [errorBackoffTime, pow_one]
  exact min_eq_left (by norm_num)

theorem two_le_pow_three_halves {rc : ℕ} (h : 2 ≤ rc) : (2 : ℚ) ≤ (3/2) ^ rc :=
  calc (2 : ℚ) ≤ (3/2) ^ 2 := by norm_num
    _ ≤ (3/2) ^ rc := pow_le_pow_right₀ (by norm_num) h

theorem errorBackoffTime_of_two_le {rc : ℕ} (h : 2 ≤ rc) :
    errorBackoffTime rc = 2 :=
  min_eq_right (two_le_pow_three_halves h)

theorem errorBackoffChunks_one : errorBackoffChunks 1 = 15 := by
  rw [errorBackoffChunks, errorBackoffTime_one]
  have h : ((3 : ℚ)/2) * 10 = 15 := by norm_num
  rw [h, pyInt, if_pos (by norm_num)]
  have h15 : ⌊(15 : ℚ)⌋ = 15 := by rw [Int.floor_eq_iff]; norm_num
  rw [h15]; rfl

theorem errorBackoffChunks_of_two_le {rc : ℕ} (h : 2 ≤ rc) :
    errorBackoffChunks rc = 20 := by
  rw [errorBackoffChunks, errorBackoffTime_of_two_le h]
  have h20 : ((2 : ℚ)) * 10 = 20 := by norm_num
  rw [h20, pyInt, if_pos (by norm_num)]
  have h' : ⌊(20 : ℚ)⌋ = 20 := by rw [Int.floor_eq_iff]; norm_num
  rw [h']; rfl

/-- For every positive retry count the chunked error-backoff wait of
`get_log_events` is exact: `int(min(1.5^rc, 2) * 10)` tenths of a second
come out to exactly `min(1.5^rc, 2)` seconds. -/
theorem errorBackoff_wait_exact {rc : ℕ} (h : 1 ≤ rc) :
    ((errorBackoffChunks rc : ℚ)) / 10 = min ((3/2 : ℚ) ^ rc) 2 := by
  rcases Nat.lt_or_ge rc 2 with h2 | h2
  · have h1 : rc = 1 := by omega
    subst h1
    rw [errorBackoffChunks_one, ← errorBackoffTime_one, errorBackoffTime_one]
    norm_num
  · rw [errorBackoffChunks_of_two_le h2,
      show min ((3/2 : ℚ) ^ rc) 2 = errorBackoffTime rc from rfl,
      errorBackoffTime_of_two_le h2]
    norm_num

theorem errorBackoffChunks_pos {rc : ℕ} (h : 1 ≤ rc) :
    0 < errorBackoffChunks rc := by
  rcases Nat.lt_or_ge rc 2 with h2 | h2
  · have h1 : rc = 1 := by omega
    rw [h1, errorBackoffChunks_one]; omega
  · rw [errorBackoffChunks_of_two_le h2]; omega

theorem errorBackoffTime_mono {a b : ℕ} (h : a ≤ b) :
    errorBackoffTime a ≤ errorBackoffTime b :=
  min_le_min (pow_le_pow_right₀ (by norm_num) h) le_rfl

theorem errorBackoffTime_le_two (n : ℕ) : errorBackoffTime n ≤ 2 :=
  min_le_right _ _

theorem emptyBackoffTime_mono {a b : ℕ} (h : a ≤ b) :
    emptyBackoffTime a ≤ emptyBackoffTime b :=
  min_le_min (mul_le_mul_of_nonneg_left (pow_le_pow_right₀ (by norm_num) h)
    (by norm_num)) le_rfl

theorem emptyBackoffTime_le_two (n : ℕ) : emptyBackoffTime n ≤ 2 :=
  min_le_right _ _

theorem emptyBackoffTime_one : emptyBackoffTime 1 = 3/4 := by
  rw [emptyBackoffTime, pow_one, show ((1 : ℚ)/2) * (3/2) = 3/4 by norm_num]
  exact min_eq_left (by norm_num)

/-! ### Chunked-sleep lemmas -/

theorem chunkedWait_const_true (n : ℕ) :
    chunkedWait n (fun _ => true) = (n, false) := by
  induction n with
  | zero => rfl
  | succ n ih => simp [chunkedWait, ih]

theorem chunkedWait_fst_le (n : ℕ) (running : ℕ → Bool) :
    (chunkedWait n running).1 ≤ n := by
  induction n generalizing running with
  | zero => simp [chunkedWait]
  | succ n ih =>
    by_cases h : running 0 = true
    · simp only [chunkedWait, if_pos h]
      have := ih fun k => running (k + 1)
      omega
    · simp [chunkedWait, h]

theorem chunkedWait_fst_le_of_stop (n : ℕ) (running : ℕ → Bool) (j : ℕ)
    (h : running j = false) : (chunkedWait n running).1 ≤ j := by
  induction n generalizing running j with
  | zero => simp [chunkedWait]
  | succ n ih =>
    by_cases h0 : running 0 = true
    · cases j with
      | zero => rw [h0] at h; cases h
      | succ j =>
        simp only [chunkedWait, if_pos h0]
        have := ih (fun k => running (k + 1)) j h
        omega
    · simp [chunkedWait, h0]

theorem chunkedWait_const_false {n : ℕ} (h : 0 < n) :
    chunkedWait n (fun _ => false) = (0, true) := by
  cases n with
  | zero => omega
  | succ n => simp [chunkedWait]

/-! ### Branch lemmas for `get_log_events` -/

theorem get_log_events_ok {nowStr g : String} {fetch : ℕ → FetchOutcome}
    {s : ReaderState} {i : ℕ} {evs : List Event}
    (hrun : s.running = true) (hf : fetch i = .ok evs) :
    get_log_events nowStr g fetch s i =
      { state := { s with
            retry_count := 0,
            seen_events := (dedupEvents s.seen_events evs).1 },
        events := (dedupEvents s.seen_events evs).2,
        sleeps := if 0 < s.retry_count
          then [((errorBackoffChunks s.retry_count : ℚ)) / 10] else [],
        attempts := 1 } := by
  rw [get_log_events]
  by_cases hrc : 0 < s.retry_count
  · simp [hrun, chunkedWait_const_true, hf, hrc]
  · simp [hrun, chunkedWait_const_true, hf, hrc]

theorem get_log_events_error_retry {nowStr g : String} {fetch : ℕ → FetchOutcome}
    {s : ReaderState} {i : ℕ} {e : String}
    (hrun : s.running = true) (hf : fetch i = .error e)
    (hr : s.retry_count + 1 ≤ maxRetries) :
    get_log_events nowStr g fetch s i =
      { state := (get_log_events nowStr g fetch
          { s with retry_count := s.retry_count + 1 } (i + 1)).state,
        events := (get_log_events nowStr g fetch
          { s with retry_count := s.retry_count + 1 } (i + 1)).events,
        sleeps := (if 0 < s.retry_count
            then [((errorBackoffChunks s.retry_count : ℚ)) / 10] else []) ++
          (get_log_events nowStr g fetch
            { s with retry_count := s.retry_count + 1 } (i + 1)).sleeps,
        attempts := (get_log_events nowStr g fetch
          { s with retry_count := s.retry_count + 1 } (i + 1)).attempts + 1 } := by
  rw [get_log_events]
  by_cases hrc : 0 < s.retry_count
  · simp [hrun, chunkedWait_const_true, hf, hr, hrc]
  · simp [hrun, chunkedWait_const_true, hf, hr, hrc]

theorem get_log_events_error_exhaust {nowStr g : String}
    {fetch : ℕ → FetchOutcome} {s : ReaderState} {i : ℕ} {e : String}
    (hrun : s.running = true) (hf : fetch i = .error e)
    (hr : ¬ s.retry_count + 1 ≤ maxRetries) :
    get_log_events nowStr g fetch s i =
      { state := { s with
            retry_count := s.retry_count + 1,
            current_logs := appendErrorLog s.current_logs
              (streamErrorEntry nowStr g e) },
        events := [],
        sleeps := if 0 < s.retry_count
          then [((errorBackoffChunks s.retry_count : ℚ)) / 10] else [],
        attempts := 1 } := by
  rw [get_log_events]
  by_cases hrc : 0 < s.retry_count
  · simp [hrun, chunkedWait_const_true, hf, hr, hrc]
  · simp [hrun, chunkedWait_const_true, hf, hr, hrc]

theorem get_log_events_stopped {nowStr g : String} {fetch : ℕ → FetchOutcome}
    {s : ReaderState} {i : ℕ}
    (hrun : s.running = false) (h1 : 1 ≤ s.retry_count) :
    get_log_events nowStr g fetch s i =
      { state := s, events := [], sleeps := [0], attempts := 0 } := by
  rw [get_log_events]
  have hrc : 0 < s.retry_count := h1
  simp [hrun, hrc, chunkedWait_const_false (errorBackoffChunks_pos h1)]

/-- A run of `get_log_events` against a fetch that always fails, entered
mid-retry (`1 ≤ retry_count`, `retry_count + n = 6`): it performs the
remaining `n` attempts with one backoff sleep before each, then appends one
synthetic error record, returns no events, and leaves `retry_count = 6`. -/
theorem get_log_events_const_error_from (nowStr g e : String) :
    ∀ (n : ℕ) (s : ReaderState) (i : ℕ), 1 ≤ n → s.running = true →
      1 ≤ s.retry_count → s.retry_count + n = 6 →
      get_log_events nowStr g (fun _ => Except.error e) s i =
        { state := { s with
              retry_count := 6,
              current_logs := appendErrorLog s.current_logs
                (streamErrorEntry nowStr g e) },
          events := [],
          sleeps := (List.range' s.retry_count n).map
            (fun k => ((errorBackoffChunks k : ℚ)) / 10),
          attempts := n } := by
  intro n
  induction n with
  | zero => intro s i hn hrun h1 h6; omega
  | succ m ih =>
    intro s i hn hrun h1 h6
    rcases Nat.eq_zero_or_pos m with hm | hm
    · subst hm
      have hrc : s.retry_count = 5 := by omega
      rw [get_log_events_error_exhaust hrun rfl (by rw [hrc]; decide)]
      simp [hrc, List.range']
    · have hrc5 : s.retry_count + 1 ≤ maxRetries := by
        rw [maxRetries]; omega
      rw [get_log_events_error_retry hrun rfl hrc5]
      have hinner := ih { s with retry_count := s.retry_count + 1 } (i + 1)
        hm hrun (by simp) (by simp; omega)
      rw [hinner]
      have hpos : 0 < s.retry_count := h1
      simp [if_pos hpos, List.range'_succ]

/-- One full exhaustion cycle: `get_log_events` entered with
`retry_count = 0` against a fetch that always fails makes 6 attempts
(1 initial + 5 retries) with backoff sleeps of 1.5s, 2s, 2s, 2s, 2s between
them, appends exactly one synthetic error record to `current_logs` (when
the session list exists), returns `[]`, and leaves `retry_count = 6` —
it is *not* reset. -/
theorem get_log_events_exhaustion_cycle {nowStr g e : String}
    {s : ReaderState} {i : ℕ} (hrun : s.running = true)
    (hrc : s.retry_count = 0) :
    get_log_events nowStr g (fun _ => Except.error e) s i =
      { state := { s with
            retry_count := 6,
            current_logs := appendErrorLog s.current_logs
              (streamErrorEntry nowStr g e) },
        events := [],
        sleeps := [3/2, 2, 2, 2, 2],
        attempts := 6 } := by
  rw [get_log_events_error_retry hrun rfl (by rw [hrc]; decide)]
  have hinner := get_log_events_const_error_from nowStr g e 5
    { s with retry_count := s.retry_count + 1 } (i + 1)
    (by norm_num) hrun (by simp) (by simp; omega)
  rw [hinner]
  have c2 : errorBackoffChunks 2 = 20 := errorBackoffChunks_of_two_le (by norm_num)
  have c3 : errorBackoffChunks 3 = 20 := errorBackoffChunks_of_two_le (by norm_num)
  have c4 : errorBackoffChunks 4 = 20 := errorBackoffChunks_of_two_le (by norm_num)
  have c5 : errorBackoffChunks 5 = 20 := errorBackoffChunks_of_two_le (by norm_num)
  norm_num [hrc, List.range', errorBackoffChunks_one, c2, c3, c4, c5]

/-! ### Deduplication lemmas -/

theorem dedupEvents_spec (evs : List Event) :
    ∀ seen : List String,
      (∀ e ∈ (dedupEvents seen evs).2, e ∈ evs) ∧
      (∀ x, x ∈ (dedupEvents seen evs).1 ↔
        x ∈ seen ∨ x ∈ (dedupEvents seen evs).2.map eventId) ∧
      ((dedupEvents seen evs).2.map eventId).Nodup ∧
      (∀ e ∈ (dedupEvents seen evs).2, eventId e ∉ seen) := by
  induction evs with
  | nil => intro seen; simp [dedupEvents]
  | cons e rest ih =>
    intro seen
    by_cases h : eventId e ∈ seen
    · obtain ⟨h1, h2, h3, h4⟩ := ih seen
      simp only [dedupEvents, if_pos h]
      exact ⟨fun x hx => List.mem_cons_of_mem _ (h1 x hx), h2, h3, h4⟩
    · obtain ⟨h1, h2, h3, h4⟩ := ih (eventId e :: seen)
      simp only [dedupEvents, if_neg h]
      refine ⟨?_, ?_, ?_, ?_⟩
      · intro x hx
        rcases List.mem_cons.1 hx with rfl | hx
        · exact List.mem_cons_self _ _
        · exact List.mem_cons_of_mem _ (h1 x hx)
      · intro x
        rw [h2 x]
        simp only [List.map_cons, List.mem_cons]
        tauto
      · rw [List.map_cons, List.nodup_cons]
        refine ⟨?_, h3⟩
        intro hmem
        obtain ⟨y, hy, hkey⟩ := List.mem_map.1 hmem
        exact h4 y hy (hkey ▸ List.mem_cons_self _ _)
      · intro y hy
        rcases List.mem_cons.1 hy with rfl | hy
        · exact h
        · exact fun hm => h4 y hy (List.mem_cons_of_mem _ hm)

/-- The backoff-loop wait of `get_log_events`, written out: used to state
the branch lemmas independently of how the stop flag resolves. -/
def preWait (s : ReaderState) : ℕ × Bool :=
  chunkedWait (if 0 < s.retry_count then errorBackoffChunks s.retry_count else 0)
    (fun _ => s.running)

/-- The backoff sleep durations recorded by one frame of `get_log_events`. -/
def preSleeps (s : ReaderState) : List ℚ :=
  if 0 < s.retry_count then [(((preWait s).1 : ℚ)) / 10] else []

theorem get_log_events_stop_core {nowStr g : String} {fetch : ℕ → FetchOutcome}
    {s : ReaderState} {i : ℕ} (hw : (preWait s).2 = true) :
    get_log_events nowStr g fetch s i =
      { state := s, events := [], sleeps := preSleeps s, attempts := 0 } := by
  rw [get_log_events]
  rw [preWait] at hw
  simp [hw, preSleeps, preWait]

theorem get_log_events_ok_core {nowStr g : String} {fetch : ℕ → FetchOutcome}
    {s : ReaderState} {i : ℕ} {evs : List Event}
    (hw : (preWait s).2 = false) (hf : fetch i = .ok evs) :
    get_log_events nowStr g fetch s i =
      { state := { s with
            retry_count := 0,
            seen_events := (dedupEvents s.seen_events evs).1 },
        events := (dedupEvents s.seen_events evs).2,
        sleeps := preSleeps s,
        attempts := 1 } := by
  rw [get_log_events]
  rw [preWait] at hw
  simp [hw, hf, preSleeps, preWait]

theorem get_log_events_error_retry_core {nowStr g : String}
    {fetch : ℕ → FetchOutcome} {s : ReaderState} {i : ℕ} {e : String}
    (hw : (preWait s).2 = false) (hf : fetch i = .error e)
    (hr : s.retry_count + 1 ≤ maxRetries) :
    get_log_events nowStr g fetch s i =
      { state := (get_log_events nowStr g fetch
          { s with retry_count := s.retry_count + 1 } (i + 1)).state,
        events := (get_log_events nowStr g fetch
          { s with retry_count := s.retry_count + 1 } (i + 1)).events,
        sleeps := preSleeps s ++ (get_log_events nowStr g fetch
          { s with retry_count := s.retry_count + 1 } (i + 1)).sleeps,
        attempts := (get_log_events nowStr g fetch
          { s with retry_count := s.retry_count + 1 } (i + 1)).attempts + 1 } := by
  rw [get_log_events]
  rw [preWait] at hw
  simp [hw, hf, hr, preSleeps, preWait]

theorem get_log_events_error_exhaust_core {nowStr g : String}
    {fetch : ℕ → FetchOutcome} {s : ReaderState} {i : ℕ} {e : String}
    (hw : (preWait s).2 = false) (hf : fetch i = .error e)
    (hr : ¬ s.retry_count + 1 ≤ maxRetries) :
    get_log_events nowStr g fetch s i =
      { state := { s with
            retry_count := s.retry_count + 1,
            current_logs := appendErrorLog s.current_logs
              (streamErrorEntry nowStr g e) },
        events := [],
        sleeps := preSleeps s,
        attempts := 1 } := by
  rw [get_log_events]
  rw [preWait] at hw
  simp [hw, hf, hr, preSleeps, preWait]

/-- Per-call dedup invariants of `get_log_events`: every returned event
comes from a successful fetch among the consumed attempts, the returned
ids are pairwise distinct and fresh with respect to the entering seen set,
and the final seen set is exactly the entering one plus the returned ids. -/
theorem get_log_events_spec (nowStr g : String) (fetch : ℕ → FetchOutcome)
    (s : ReaderState) (i : ℕ) :
    (∀ e ∈ (get_log_events nowStr g fetch s i).events,
      ∃ evs j, i ≤ j ∧ j < i + (get_log_events nowStr g fetch s i).attempts ∧
        fetch j = Except.ok evs ∧ e ∈ evs) ∧
    ((get_log_events nowStr g fetch s i).events.map eventId).Nodup ∧
    (∀ e ∈ (get_log_events nowStr g fetch s i).events,
      eventId e ∉ s.seen_events) ∧
    (∀ x, x ∈ (get_log_events nowStr g fetch s i).state.seen_events ↔
      x ∈ s.seen_events ∨
        x ∈ (get_log_events nowStr g fetch s i).events.map eventId) := by
  induction s, i using get_log_events.induct nowStr g fetch with
  | case1 s i n w hw =>
    have hw' : (preWait s).2 = true := hw
    rw [get_log_events_stop_core hw']
    simp
  | case2 s i n w hw evs hf =>
    have hw' : (preWait s).2 = false := Bool.of_not_eq_true hw
    obtain ⟨d1, d2, d3, d4⟩ := dedupEvents_spec evs s.seen_events
    rw [get_log_events_ok_core hw' hf]
    refine ⟨?_, d3, d4, d2⟩
    intro e he
    exact ⟨evs, i, le_refl i, by simp, hf, d1 e he⟩
  | case3 s i n w hw e hf s1 hle ih =>
    have hw' : (preWait s).2 = false := Bool.of_not_eq_true hw
    have hle' : s.retry_count + 1 ≤ maxRetries := hle
    obtain ⟨i1, i2, i3, i4⟩ := ih
    rw [get_log_events_error_retry_core hw' hf hle']
    refine ⟨?_, i2, i3, i4⟩
    intro x hx
    obtain ⟨evs, j, hj1, hj2, hj3, hj4⟩ := i1 x hx
    have hj2' : j < (i + 1) + (get_log_events nowStr g fetch
        { s with retry_count := s.retry_count + 1 } (i + 1)).attempts := hj2
    refine ⟨evs, j, by omega, ?_, hj3, hj4⟩
    show j < i + ((get_log_events nowStr g fetch
        { s with retry_count := s.retry_count + 1 } (i + 1)).attempts + 1)
    omega
  | case4 s i n w hw e hf s1 hgt =>
    have hw' : (preWait s).2 = false := Bool.of_not_eq_true hw
    have hgt' : ¬ s.retry_count + 1 ≤ maxRetries := hgt
    rw [get_log_events_error_exhaust_core hw' hf hgt']
    simp

theorem mem_fetchedEvents {fetch : ℕ → FetchOutcome} {i j : ℕ} {e : Event} :
    e ∈ fetchedEvents fetch i j ↔
      ∃ evs k, i ≤ k ∧ k < j ∧ fetch k = Except.ok evs ∧ e ∈ evs := by
  simp only [fetchedEvents, List.mem_flatMap, List.mem_range]
  constructor
  · rintro ⟨k, hk, he⟩
    cases hF : fetch (i + k) with
    | ok evs =>
      rw [hF] at he
      exact ⟨evs, i + k, by omega, by omega, hF, he⟩
    | error _ => rw [hF] at he; cases he
  · rintro ⟨evs, k, h1, h2, h3, h4⟩
    refine ⟨k - i, by omega, ?_⟩
    have hik : i + (k - i) = k := by omega
    rw [hik, h3]
    exact h4

/-- Session invariants of `runCalls`: the attempt index advances, the seen
set only grows, returned ids land in the final seen set, are fresh with
respect to the starting seen set, are pairwise distinct across the whole
session, and every returned event comes from a successful fetch consumed
during the session. -/
theorem runCalls_spec (nowStr g : String) (fetch : ℕ → FetchOutcome) :
    ∀ (k : ℕ) (s : ReaderState) (i : ℕ),
      i ≤ (runCalls nowStr g fetch k s i).2.2 ∧
      (∀ x, x ∈ s.seen_events →
        x ∈ (runCalls nowStr g fetch k s i).1.seen_events) ∧
      (∀ e ∈ (runCalls nowStr g fetch k s i).2.1,
        eventId e ∈ (runCalls nowStr g fetch k s i).1.seen_events) ∧
      (∀ e ∈ (runCalls nowStr g fetch k s i).2.1,
        eventId e ∉ s.seen_events) ∧
      ((runCalls nowStr g fetch k s i).2.1.map eventId).Nodup ∧
      (∀ e ∈ (runCalls nowStr g fetch k s i).2.1,
        ∃ evs j, i ≤ j ∧ j < (runCalls nowStr g fetch k s i).2.2 ∧
          fetch j = Except.ok evs ∧ e ∈ evs) := by
  intro k
  induction k with
  | zero =>
    intro s i
    simp [runCalls]
  | succ k ih =>
    intro s i
    obtain ⟨g1, g2, g3, g4⟩ := get_log_events_spec nowStr g fetch s i
    obtain ⟨p0, p1, p2, p3, p4, p5⟩ := ih (get_log_events nowStr g fetch s i).state
      (i + (get_log_events nowStr g fetch s i).attempts)
    simp only [runCalls]
    refine ⟨?_, ?_, ?_, ?_, ?_, ?_⟩
    · have : i ≤ i + (get_log_events nowStr g fetch s i).attempts := by omega
      omega
    · intro x hx
      exact p1 x ((g4 x).2 (Or.inl hx))
    · intro e he
      rcases List.mem_append.1 he with he | he
      · exact p1 _ ((g4 (eventId e)).2 (Or.inr (List.mem_map_of_mem _ he)))
      · exact p2 e he
    · intro e he
      rcases List.mem_append.1 he with he | he
      · exact g3 e he
      · intro hmem
        exact p3 e he ((g4 (eventId e)).2 (Or.inl hmem))
    · rw [List.map_append, List.nodup_append]
      refine ⟨g2, p4, ?_⟩
      intro a ha hb
      obtain ⟨e1, he1, hk1⟩ := List.mem_map.1 ha
      obtain ⟨e2, he2, hk2⟩ := List.mem_map.1 hb
      apply p3 e2 he2
      rw [hk2, ← hk1]
      exact (g4 (eventId e1)).2 (Or.inr (List.mem_map_of_mem _ he1))
    · intro e he
      rcases List.mem_append.1 he with he | he
      · obtain ⟨evs, j, hj1, hj2, hj3, hj4⟩ := g1 e he
        exact ⟨evs, j, hj1, by omega, hj3, hj4⟩
      · obtain ⟨evs, j, hj1, hj2, hj3, hj4⟩ := p5 e he
        exact ⟨evs, j, by omega, hj2, hj3, hj4⟩

/-- **C1 (amended).** For every session of `get_log_events` calls (any
fetch oracle, any number of calls), the dedup ids of the returned events
are a subset — not necessarily a strict one — of the ids of all fetched
events, no id is returned twice within the session, and the id of every
returned event has been inserted into the reader's `seen_events` set. -/
theorem c1_session_dedup (nowStr g : String) (fetch : ℕ → FetchOutcome)
    (k : ℕ) (s : ReaderState) (i : ℕ) :
    ((runCalls nowStr g fetch k s i).2.1.map eventId) ⊆
      ((fetchedEvents fetch i (runCalls nowStr g fetch k s i).2.2).map
        eventId) ∧
    ((runCalls nowStr g fetch k s i).2.1.map eventId).Nodup ∧
    (∀ e ∈ (runCalls nowStr g fetch k s i).2.1,
      eventId e ∈ (runCalls nowStr g fetch k s i).1.seen_events) := by
  obtain ⟨p0, p1, p2, p3, p4, p5⟩ := runCalls_spec nowStr g fetch k s i
  refine ⟨?_, p4, p2⟩
  intro a ha
  obtain ⟨e, he, hk⟩ := List.mem_map.1 ha
  obtain ⟨evs, j, hj1, hj2, hj3, hj4⟩ := p5 e he
  exact hk ▸ List.mem_map_of_mem _
    (mem_fetchedEvents.2 ⟨evs, j, hj1, hj2, hj3, hj4⟩)

/-- **C1 (witness).** The session guarantees instantiated at a concrete
one-call session returning one event. -/
theorem c1_session_dedup_witness :
    ((runCalls "t" "g" (fun _ => Except.ok [⟨0, "m"⟩]) 1
        { seen_events := [], retry_count := 0, current_logs := some [],
          running := true } 0).2.1.map eventId) ⊆
      ((fetchedEvents (fun _ => Except.ok [⟨0, "m"⟩]) 0
        (runCalls "t" "g" (fun _ => Except.ok [⟨0, "m"⟩]) 1
          { seen_events := [], retry_count := 0, current_logs := some [],
            running := true } 0).2.2).map eventId) ∧
    ((runCalls "t" "g" (fun _ => Except.ok [⟨0, "m"⟩]) 1
        { seen_events := [], retry_count := 0, current_logs := some [],
          running := true } 0).2.1.map eventId).Nodup ∧
    (∀ e ∈ (runCalls "t" "g" (fun _ => Except.ok [⟨0, "m"⟩]) 1
        { seen_events := [], retry_count := 0, current_logs := some [],
          running := true } 0).2.1,
      eventId e ∈ (runCalls "t" "g" (fun _ => Except.ok [⟨0, "m"⟩]) 1
        { seen_events := [], retry_count := 0, current_logs := some [],
          running := true } 0).1.seen_events) :=
  c1_session_dedup "t" "g" (fun _ => Except.ok [⟨0, "m"⟩]) 1
    { seen_events := [], retry_count := 0, current_logs := some [],
      running := true } 0

/-- **C1 (counterexample).** The claim's "strict subset" fails: in a
session consisting of one call whose single fetch returns one fresh event,
the returned ids equal the fetched ids, so the returned id set is *not* a
strict subset of the fetched id set. -/
theorem c1_strict_subset_counterexample :
    ¬ (((runCalls "t" "g" (fun _ => Except.ok [⟨0, "m"⟩]) 1
          { seen_events := [], retry_count := 0, current_logs := some [],
            running := true } 0).2.1.map eventId).toFinset ⊂
        ((fetchedEvents (fun _ => Except.ok [⟨0, "m"⟩]) 0
          (runCalls "t" "g" (fun _ => Except.ok [⟨0, "m"⟩]) 1
            { seen_events := [], retry_count := 0, current_logs := some [],
              running := true } 0).2.2).map eventId).toFinset) := by
  have hG : get_log_events "t" "g" (fun _ => Except.ok [⟨0, "m"⟩])
      { seen_events := [], retry_count := 0, current_logs := some [],
        running := true } 0 =
      { state := {
          seen_events := [eventId ⟨0, "m"⟩],
          retry_count := 0,
          current_logs := some [],
          running := true },
        events := [⟨0, "m"⟩], sleeps := [], attempts := 1 } := by
    have h := @get_log_events_ok_core "t" "g"
      (fun _ => Except.ok [⟨0, "m"⟩])
      ⟨[], 0, some [], true⟩ 0 [⟨0, "m"⟩] rfl rfl
    rw [h]
    simp [dedupEvents, preSleeps, preWait]
  have hR : runCalls "t" "g" (fun _ => Except.ok [⟨0, "m"⟩]) 1
      { seen_events := [], retry_count := 0, current_logs := some [],
        running := true } 0 =
      ({ seen_events := [eventId ⟨0, "m"⟩],
         retry_count := 0,
         current_logs := some [],
         running := true },
        [⟨0, "m"⟩], 1) := by
    simp [runCalls, hG]
  rw [hR]
  have hF : fetchedEvents (fun _ => Except.ok [(⟨0, "m"⟩ : Event)]) 0 1 =
      [⟨0, "m"⟩] := rfl
  simp only [hF]
  exact fun h => ssubset_irrefl _ h

/-- Against a fetch that always fails, `retry_count` on return equals the
entering `retry_count` plus the number of attempts made: it increments by
exactly one per consecutive failure and is never reset on this path. -/
theorem get_log_events_const_error_rc (nowStr g e : String)
    (s : ReaderState) (i : ℕ) :
    (get_log_events nowStr g (fun _ => Except.error e) s i).state.retry_count =
      s.retry_count +
        (get_log_events nowStr g (fun _ => Except.error e) s i).attempts := by
  induction s, i using get_log_events.induct nowStr g
      (fun _ => Except.error e) with
  | case1 s i n w hw =>
    rw [get_log_events_stop_core (show (preWait s).2 = true from hw)]
    simp
  | case2 s i n w hw evs hf => cases hf
  | case3 s i n w hw e' hf s1 hle ih =>
    have hw' : (preWait s).2 = false := Bool.of_not_eq_true hw
    have hle' : s.retry_count + 1 ≤ maxRetries := hle
    have hf' : ((fun _ => Except.error e : ℕ → FetchOutcome)) i =
        Except.error e := rfl
    rw [get_log_events_error_retry_core hw' hf' hle']
    have ih' : (get_log_events nowStr g (fun _ => Except.error e)
        { s with retry_count := s.retry_count + 1 } (i + 1)).state.retry_count =
        s.retry_count + 1 + (get_log_events nowStr g (fun _ => Except.error e)
          { s with retry_count := s.retry_count + 1 } (i + 1)).attempts := ih
    simp only
    omega
  | case4 s i n w hw e' hf s1 hgt =>
    have hw' : (preWait s).2 = false := Bool.of_not_eq_true hw
    have hf' : ((fun _ => Except.error e : ℕ → FetchOutcome)) i =
        Except.error e := rfl
    have hgt' : ¬ s.retry_count + 1 ≤ maxRetries := hgt
    rw [get_log_events_error_exhaust_core hw' hf' hgt']

/-- With `retry_count ≥ 1` and the reader running, the error-backoff wait
performed at the top of `get_log_events` is exactly
`min(1.5 ** retry_count, 2)` seconds. -/
theorem preSleeps_running {s : ReaderState} (hrun : s.running = true)
    (h1 : 1 ≤ s.retry_count) :
    preSleeps s = [min ((3/2 : ℚ) ^ s.retry_count) 2] := by
  have h0 : 0 < s.retry_count := h1
  simp [preSleeps, preWait, hrun, chunkedWait_const_true, h0,
    errorBackoff_wait_exact h1]

/-- **C3 (amended).** With `max_retries = 5` and an always-failing source:
a call entered with `retry_count = 0` (and the session log list present)
makes 6 attempts, appends exactly one synthetic `'ERROR'` entry, and
returns `[]` so the polling loop continues — but the retry counter is
*not* reset: it is left at `max_retries + 1 = 6`.  Afterwards every
further failing call makes a single attempt and appends one more error
entry, and the counter resets to 0 only on the next successful fetch. -/
theorem c3_retry_exhaustion :
    (∀ nowStr g e (s : ReaderState) i L, s.running = true →
      s.retry_count = 0 → s.current_logs = some L →
      get_log_events nowStr g (fun _ => Except.error e) s i =
        { state := { s with
              retry_count := 6,
              current_logs := some (L ++ [streamErrorEntry nowStr g e]) },
          events := [],
          sleeps := [3/2, 2, 2, 2, 2],
          attempts := 6 }) ∧
    (∀ nowStr g e (s : ReaderState) i, s.running = true →
      s.retry_count = 6 →
      (get_log_events nowStr g (fun _ => Except.error e) s i).attempts = 1 ∧
      (get_log_events nowStr g (fun _ => Except.error e) s
          i).state.current_logs =
        appendErrorLog s.current_logs (streamErrorEntry nowStr g e) ∧
      (get_log_events nowStr g (fun _ => Except.error e) s
          i).state.retry_count = 7) ∧
    (∀ nowStr g fetch (s : ReaderState) i (evs : List Event),
      s.running = true → fetch i = Except.ok evs →
      (get_log_events nowStr g fetch s i).state.retry_count = 0) := by
  refine ⟨?_, ?_, ?_⟩
  · intro nowStr g e s i L hrun hrc hlogs
    rw [get_log_events_exhaustion_cycle hrun hrc, hlogs]
    rfl
  · intro nowStr g e s i hrun hrc
    have hgt : ¬ s.retry_count + 1 ≤ maxRetries := by
      rw [hrc, maxRetries]; omega
    rw [get_log_events_error_exhaust hrun rfl hgt]
    exact ⟨rfl, rfl, by simp [hrc]⟩
  · intro nowStr g fetch s i evs hrun hf
    rw [get_log_events_ok hrun hf]

/-- **C3 (witness).** The amended exhaustion behaviour at a concrete
always-failing source, starting from a fresh reader. -/
theorem c3_retry_exhaustion_witness :
    get_log_events "t" "g" (fun _ => Except.error "boom")
        { seen_events := [], retry_count := 0, current_logs := some [],
          running := true } 0 =
      { state := {
          seen_events := [],
          retry_count := 6,
          current_logs := some [streamErrorEntry "t" "g" "boom"],
          running := true },
        events := [],
        sleeps := [3/2, 2, 2, 2, 2],
        attempts := 6 } := by
  have h := c3_retry_exhaustion.1 "t" "g" "boom"
    { seen_events := [], retry_count := 0, current_logs := some [],
      running := true } 0 [] rfl rfl rfl
  rw [h]
  rfl

/-- **C3 (counterexample).** After the synthetic error entry has been
emitted (it is in the session list), the retry counter is *not* reset: it
is 6, not 0 — refuting the claim that normal polling resumes with a reset
counter. -/
theorem c3_counter_not_reset :
    (get_log_events "t" "g" (fun _ => Except.error "boom")
        { seen_events := [], retry_count := 0, current_logs := some [],
          running := true } 0).state.current_logs =
      some [streamErrorEntry "t" "g" "boom"] ∧
    (get_log_events "t" "g" (fun _ => Except.error "boom")
        { seen_events := [], retry_count := 0, current_logs := some [],
          running := true } 0).state.retry_count = 6 ∧
    (6 : ℕ) ≠ 0 := by
  rw [get_log_events_exhaustion_cycle rfl rfl]
  exact ⟨rfl, rfl, by norm_num⟩

/-- **C4.** The error-backoff wait of `get_log_events` equals
`min(1.5 ** retry_count, 2.0)` seconds exactly (the 0.1s chunking loses
nothing because 1.5 and 2.0 are multiples of 0.1); it is applied only when
`retry_count > 0`, at the top of the call before the fetch; `retry_count`
increments by exactly one per consecutive failure; and it resets to 0 on
any successful fetch. -/
theorem c4_error_backoff :
    (∀ rc : ℕ, 1 ≤ rc →
      ((errorBackoffChunks rc : ℚ)) / 10 = min ((3/2 : ℚ) ^ rc) 2) ∧
    (∀ nowStr g fetch (s : ReaderState) i (evs : List Event),
      s.retry_count = 0 → fetch i = Except.ok evs →
      (get_log_events nowStr g fetch s i).sleeps = []) ∧
    (∀ nowStr g fetch (s : ReaderState) i, 1 ≤ s.retry_count →
      s.running = true →
      ∃ rest, (get_log_events nowStr g fetch s i).sleeps =
        min ((3/2 : ℚ) ^ s.retry_count) 2 :: rest) ∧
    (∀ nowStr g e (s : ReaderState) i,
      (get_log_events nowStr g (fun _ => Except.error e) s
          i).state.retry_count =
        s.retry_count +
          (get_log_events nowStr g (fun _ => Except.error e) s i).attempts) ∧
    (∀ nowStr g fetch (s : ReaderState) i (evs : List Event),
      s.running = true → fetch i = Except.ok evs →
      (get_log_events nowStr g fetch s i).state.retry_count = 0) := by
  refine ⟨?_, ?_, ?_, ?_, ?_⟩
  · intro rc h1
    exact errorBackoff_wait_exact h1
  · intro nowStr g fetch s i evs hrc hf
    have hw : (preWait s).2 = false := by
      simp [preWait, hrc]
      exact congrArg Prod.snd (chunkedWait_const_true 0) ▸ rfl
    rw [get_log_events_ok_core hw hf]
    simp [preSleeps, hrc]
  · intro nowStr g fetch s i h1 hrun
    have hw : (preWait s).2 = false := by
      rw [preWait, hrun, chunkedWait_const_true]
    have hpre := preSleeps_running hrun h1
    cases hF : fetch i with
    | ok evs =>
      rw [get_log_events_ok_core hw hF, hpre]
      exact ⟨[], rfl⟩
    | error e =>
      by_cases hr : s.retry_count + 1 ≤ maxRetries
      · rw [get_log_events_error_retry_core hw hF hr, hpre]
        exact ⟨_, rfl⟩
      · rw [get_log_events_error_exhaust_core hw hF hr, hpre]
        exact ⟨[], rfl⟩
  · intro nowStr g e s i
    exact get_log_events_const_error_rc nowStr g e s i
  · intro nowStr g fetch s i evs hrun hf
    rw [get_log_events_ok hrun hf]

/-- **C4 (witness).** The backoff facts instantiated concretely: the wait
at `retry_count = 1` is exactly `min(1.5, 2) = 1.5` seconds; a call with
`retry_count = 0` and an immediately successful fetch performs no backoff
sleep and ends with `retry_count = 0`. -/
theorem c4_error_backoff_witness :
    ((errorBackoffChunks 1 : ℚ)) / 10 = min ((3/2 : ℚ) ^ 1) 2 ∧
    (get_log_events "t" "g" (fun _ => Except.ok ([] : List Event))
        { seen_events := [], retry_count := 0, current_logs := some [],
          running := true } 0).sleeps = [] ∧
    (get_log_events "t" "g" (fun _ => Except.ok ([] : List Event))
        { seen_events := [], retry_count := 0, current_logs := some [],
          running := true } 0).state.retry_count = 0 :=
  ⟨c4_error_backoff.1 1 (by norm_num),
   c4_error_backoff.2.1 "t" "g" (fun _ => Except.ok ([] : List Event))
     { seen_events := [], retry_count := 0, current_logs := some [],
       running := true } 0 [] rfl rfl,
   c4_error_backoff.2.2.2.2 "t" "g" (fun _ => Except.ok ([] : List Event))
     { seen_events := [], retry_count := 0, current_logs := some [],
       running := true } 0 [] rfl rfl⟩

/-- `int(sleep_time * 10)` on the first empty poll: `sleep_time = 0.75`,
so the loop runs `int(7.5) = 7` iterations — the wall-clock wait is 0.7s,
not 0.75s. -/
theorem emptyBackoffChunks_one : (pyInt (emptyBackoffTime 1 * 10)).toNat = 7 := by
  rw [emptyBackoffTime_one, show ((3 : ℚ)/4) * 10 = 15/2 by norm_num, pyInt,
    if_pos (by norm_num)]
  have h : ⌊(15/2 : ℚ)⌋ = 7 := by rw [Int.floor_eq_iff]; norm_num
  rw [h]; rfl

/-- When `retry_count ≥ 1` and the reader is running, every call of
`get_log_events` begins with a backoff sleep of exactly
`min(1.5 ** retry_count, 2)` seconds, whatever the fetch does. -/
theorem get_log_events_backoff_head (nowStr g : String)
    (fetch : ℕ → FetchOutcome) (s : ReaderState) (i : ℕ)
    (h1 : 1 ≤ s.retry_count) (hrun : s.running = true) :
    ∃ rest, (get_log_events nowStr g fetch s i).sleeps =
      min ((3/2 : ℚ) ^ s.retry_count) 2 :: rest := by
  have hw : (preWait s).2 = false := by
    rw [preWait, hrun, chunkedWait_const_true]
  have hpre := preSleeps_running hrun h1
  cases hF : fetch i with
  | ok evs =>
    rw [get_log_events_ok_core hw hF, hpre]
    exact ⟨[], rfl⟩
  | error e =>
    by_cases hr : s.retry_count + 1 ≤ maxRetries
    · rw [get_log_events_error_retry_core hw hF hr, hpre]
      exact ⟨_, rfl⟩
    · rw [get_log_events_error_exhaust_core hw hF hr, hpre]
      exact ⟨[], rfl⟩

/-- **C5 (amended).** After a fetch returning zero new events,
`stream_log_group` increments `empty_responses` and computes
`sleep_time = min(0.5 * 1.5 ** empty_responses, 2)` with the incremented
counter, but the chunked loop then sleeps `int(sleep_time * 10)` tenths of
a second — `⌊10 · sleep_time⌋ / 10`, not `sleep_time` itself (0.7s instead
of 0.75s on the first empty poll); the counter resets to 0 when events are
found; and both backoff formulas are monotonically non-decreasing in their
counters and bounded above by 2.0. -/
theorem c5_empty_backoff :
    (∀ g (running : ℕ → Bool) lt er,
      (stream_log_group_iter g [] running lt er).empty_responses = er + 1) ∧
    (∀ g lt er,
      (stream_log_group_iter g [] (fun _ => true) lt er).sleepSeconds =
        ((pyInt (emptyBackoffTime (er + 1) * 10)).toNat : ℚ) / 10) ∧
    (∀ g evs (running : ℕ → Bool) lt er, evs ≠ [] →
      (stream_log_group_iter g evs running lt er).empty_responses = 0) ∧
    (∀ a b : ℕ, a ≤ b → errorBackoffTime a ≤ errorBackoffTime b ∧
      emptyBackoffTime a ≤ emptyBackoffTime b) ∧
    (∀ n : ℕ, errorBackoffTime n ≤ 2 ∧ emptyBackoffTime n ≤ 2) := by
  refine ⟨?_, ?_, ?_, ?_, ?_⟩
  · intro g running lt er
    simp [stream_log_group_iter]
  · intro g lt er
    simp [stream_log_group_iter, chunkedWait_const_true]
  · intro g evs running lt er h
    simp [stream_log_group_iter, h]
  · intro a b h
    exact ⟨errorBackoffTime_mono h, emptyBackoffTime_mono h⟩
  · intro n
    exact ⟨errorBackoffTime_le_two n, emptyBackoffTime_le_two n⟩

/-- **C5 (witness).** The amended behaviour at concrete inputs: first
empty poll increments the counter 0 → 1; an event resets it; monotonicity
and the 2.0 bound at sample points. -/
theorem c5_empty_backoff_witness :
    (stream_log_group_iter "g" [] (fun _ => true) 0 0).empty_responses =
      0 + 1 ∧
    (stream_log_group_iter "g" [⟨0, "m"⟩] (fun _ => true) 0
      5).empty_responses = 0 ∧
    (errorBackoffTime 1 ≤ errorBackoffTime 2 ∧
      emptyBackoffTime 1 ≤ emptyBackoffTime 2) ∧
    (errorBackoffTime 9 ≤ 2 ∧ emptyBackoffTime 9 ≤ 2) :=
  ⟨c5_empty_backoff.1 "g" (fun _ => true) 0 0,
   c5_empty_backoff.2.2.1 "g" [⟨0, "m"⟩] (fun _ => true) 0 5 (by simp),
   c5_empty_backoff.2.2.2.1 1 2 (by norm_num),
   c5_empty_backoff.2.2.2.2 9⟩

/-- **C5 (counterexample).** On the first empty poll (`empty_responses`
becomes 1) the loop sleeps 0.7 seconds, while
`min(0.5 * 1.5 ** 1, 2.0) = 0.75`: the claimed sleep duration is wrong. -/
theorem c5_sleep_duration_counterexample :
    (stream_log_group_iter "g" [] (fun _ => true) 0 0).sleepSeconds = 7/10 ∧
    min ((1/2 : ℚ) * (3/2) ^
      (stream_log_group_iter "g" [] (fun _ => true) 0 0).empty_responses) 2 =
      3/4 ∧
    (7/10 : ℚ) ≠ 3/4 := by
  refine ⟨?_, ?_, by norm_num⟩
  · show ((chunkedWait (pyInt (emptyBackoffTime (0 + 1) * 10)).toNat
      (fun _ => true)).1 : ℚ) / 10 = 7/10
    rw [show (0 : ℕ) + 1 = 1 from rfl, emptyBackoffChunks_one,
      chunkedWait_const_true]
    norm_num
  · show min ((1/2 : ℚ) * (3/2) ^ (0 + 1)) 2 = 3/4
    exact emptyBackoffTime_one

/-- **C9.** Every chunked sleep observes the stop flag before each 0.1s
increment: once the flag reads false at check `j`, at most `j` increments
ever run (so no increment at or after the stop, and never the full backoff
duration); and a `get_log_events` call that is mid-backoff when the flag
is down returns `[]` immediately, with no fetch attempt. -/
theorem c9_cancellation_latency :
    (∀ (n : ℕ) (running : ℕ → Bool) (j : ℕ), running j = false →
      (chunkedWait n running).1 ≤ n ∧ (chunkedWait n running).1 ≤ j) ∧
    (∀ nowStr g fetch (s : ReaderState) i, s.running = false →
      1 ≤ s.retry_count →
      get_log_events nowStr g fetch s i =
        { state := s, events := [], sleeps := [0], attempts := 0 }) := by
  constructor
  · intro n running j h
    exact ⟨chunkedWait_fst_le n running, chunkedWait_fst_le_of_stop n running j h⟩
  · intro nowStr g fetch s i hrun h1
    exact get_log_events_stopped hrun h1

/-- **C9 (witness).** A 2-second (20-chunk) backoff interrupted at the
very first check performs zero sleep increments; a stopped reader
mid-retry returns immediately. -/
theorem c9_cancellation_latency_witness :
    ((chunkedWait 20 (fun _ => false)).1 ≤ 20 ∧
      (chunkedWait 20 (fun _ => false)).1 ≤ 0) ∧
    get_log_events "t" "g" (fun _ => Except.ok ([] : List Event))
        { seen_events := [], retry_count := 3, current_logs := some [],
          running := false } 0 =
      { state := {
          seen_events := [],
          retry_count := 3,
          current_logs := some [],
          running := false },
        events := [], sleeps := [0], attempts := 0 } :=
  ⟨c9_cancellation_latency.1 20 (fun _ => false) 0 rfl,
   c9_cancellation_latency.2 "t" "g" (fun _ => Except.ok ([] : List Event))
     { seen_events := [], retry_count := 3, current_logs := some [],
       running := false } 0 rfl (by norm_num)⟩

/-- The evolution of `retry_count` in `get_log_events` ignores the
`log_group` argument entirely: the counter is a single reader-level field,
not per-source state. -/
theorem get_log_events_rc_group_independent (nowStr gA gB : String)
    (fetch : ℕ → FetchOutcome) (s : ReaderState) (i : ℕ) :
    (get_log_events nowStr gA fetch s i).state.retry_count =
      (get_log_events nowStr gB fetch s i).state.retry_count := by
  induction s, i using get_log_events.induct nowStr gA fetch with
  | case1 s i n w hw =>
    have hw' : (preWait s).2 = true := hw
    rw [get_log_events_stop_core hw', get_log_events_stop_core hw']
  | case2 s i n w hw evs hf =>
    have hw' : (preWait s).2 = false := Bool.of_not_eq_true hw
    rw [get_log_events_ok_core hw' hf, get_log_events_ok_core hw' hf]
  | case3 s i n w hw e hf s1 hle ih =>
    have hw' : (preWait s).2 = false := Bool.of_not_eq_true hw
    have hle' : s.retry_count + 1 ≤ maxRetries := hle
    rw [get_log_events_error_retry_core hw' hf hle',
      get_log_events_error_retry_core hw' hf hle']
    exact ih
  | case4 s i n w hw e hf s1 hgt =>
    have hw' : (preWait s).2 = false := Bool.of_not_eq_true hw
    have hgt' : ¬ s.retry_count + 1 ≤ maxRetries := hgt
    rw [get_log_events_error_exhaust_core hw' hf hgt',
      get_log_events_error_exhaust_core hw' hf hgt']

/-- **C8 (amended).** The per-source isolation holds only for the
empty-poll counter: `empty_responses` is a local of each
`stream_log_group` invocation and depends only on its own inputs.  The
retry counter, by contrast, is one shared `self.retry_count` field: its
evolution is independent of which source a call is for, and after an
exhaustion cycle caused by source A, the next call for any other source B
starts with `retry_count = 6` and therefore performs a full 2-second error
backoff even though B itself never failed. -/
theorem c8_retry_state_sharing :
    (∀ gA gB (evs : List Event) r1 r2 lt1 lt2 er,
      (stream_log_group_iter gA evs r1 lt1 er).empty_responses =
        (stream_log_group_iter gB evs r2 lt2 er).empty_responses) ∧
    (∀ nowStr gA gB fetch (s : ReaderState) i,
      (get_log_events nowStr gA fetch s i).state.retry_count =
        (get_log_events nowStr gB fetch s i).state.retry_count) ∧
    (∀ nowStr gA gB e fetch2 (s : ReaderState) i i2, s.running = true →
      s.retry_count = 0 →
      (get_log_events nowStr gB fetch2
        ((get_log_events nowStr gA (fun _ => Except.error e) s i).state)
        i2).sleeps.head? = some 2) := by
  refine ⟨?_, ?_, ?_⟩
  · intro gA gB evs r1 r2 lt1 lt2 er
    rcases List.eq_nil_or_concat evs with rfl | ⟨l, a, rfl⟩
    · simp [stream_log_group_iter]
    · simp [stream_log_group_iter]
  · intro nowStr gA gB fetch s i
    exact get_log_events_rc_group_independent nowStr gA gB fetch s i
  · intro nowStr gA gB e fetch2 s i i2 hrun hrc
    rw [get_log_events_exhaustion_cycle hrun hrc]
    obtain ⟨rest, hr⟩ := get_log_events_backoff_head nowStr gB fetch2
      { s with
        retry_count := 6,
        current_logs := appendErrorLog s.current_logs
          (streamErrorEntry nowStr gA e) } i2 (by norm_num) hrun
    rw [hr]
    have h2 : min ((3/2 : ℚ) ^ (6 : ℕ)) 2 = 2 :=
      errorBackoffTime_of_two_le (by norm_num)
    simp only [List.head?_cons]
    rw [h2]

/-- **C8 (witness).** The sharing facts at concrete inputs. -/
theorem c8_retry_state_sharing_witness :
    (stream_log_group_iter "A" [] (fun _ => true) 0 0).empty_responses =
      (stream_log_group_iter "B" [] (fun _ => false) 9 0).empty_responses ∧
    (get_log_events "t" "A" (fun _ => Except.error "x")
        { seen_events := [], retry_count := 0, current_logs := some [],
          running := true } 0).state.retry_count =
      (get_log_events "t" "B" (fun _ => Except.error "x")
        { seen_events := [], retry_count := 0, current_logs := some [],
          running := true } 0).state.retry_count ∧
    (get_log_events "t" "B" (fun _ => Except.ok ([] : List Event))
        ((get_log_events "t" "A" (fun _ => Except.error "x")
          { seen_events := [], retry_count := 0, current_logs := some [],
            running := true } 0).state) 0).sleeps.head? = some 2 :=
  ⟨c8_retry_state_sharing.1 "A" "B" [] (fun _ => true) (fun _ => false) 0 9 0,
   c8_retry_state_sharing.2.1 "t" "A" "B" (fun _ => Except.error "x")
     { seen_events := [], retry_count := 0, current_logs := some [],
       running := true } 0,
   c8_retry_state_sharing.2.2 "t" "A" "B" "x"
     (fun _ => Except.ok ([] : List Event))
     { seen_events := [], retry_count := 0, current_logs := some [],
       running := true } 0 0 rfl rfl⟩

/-- **C8 (counterexample).** A failing fetch for source A does *not* leave
the retry state governing source B's backoff unchanged: it drives the
shared `retry_count` from 0 to 6, and B's next call then performs a full
2-second error backoff although B never failed. -/
theorem c8_shared_retry_counterexample :
    (get_log_events "t" "A" (fun _ => Except.error "x")
        { seen_events := [], retry_count := 0, current_logs := some [],
          running := true } 0).state.retry_count = 6 ∧
    ({ seen_events := [], retry_count := 0, current_logs := some [],
        running := true } : ReaderState).retry_count = 0 ∧
    (get_log_events "t" "B" (fun _ => Except.ok ([] : List Event))
        ((get_log_events "t" "A" (fun _ => Except.error "x")
          { seen_events := [], retry_count := 0, current_logs := some [],
            running := true } 0).state) 0).sleeps = [2] := by
  rw [get_log_events_exhaustion_cycle rfl rfl]
  refine ⟨rfl, rfl, ?_⟩
  have hw : (preWait
      (⟨[], 6, some [streamErrorEntry "t" "A" "x"], true⟩ : ReaderState)).2 =
      false := by
    rw [preWait, chunkedWait_const_true]
  have h := @get_log_events_ok_core "t" "B"
    (fun _ => Except.ok ([] : List Event))
    ⟨[], 6, some [streamErrorEntry "t" "A" "x"], true⟩ 0 [] hw rfl
  show (get_log_events "t" "B" (fun _ => Except.ok ([] : List Event))
      (⟨[], 6, some [streamErrorEntry "t" "A" "x"], true⟩ : ReaderState)
      0).sleeps = [2]
  rw [h]
  show preSleeps
    (⟨[], 6, some [streamErrorEntry "t" "A" "x"], true⟩ : ReaderState) = [2]
  have hp := preSleeps_running
    (s := ⟨[], 6, some [streamErrorEntry "t" "A" "x"], true⟩) rfl (by norm_num)
  rw [hp]
  have h2 : min ((3/2 : ℚ) ^ (6 : ℕ)) 2 = 2 :=
    errorBackoffTime_of_two_le (by norm_num)
  show [min ((3/2 : ℚ) ^ (6 : ℕ)) 2] = [2]
  rw [h2]

/-- **C7 (amended).** Only the batch path distinguishes "source not
found": in `fetch_recent_logs` an exception containing
`"ResourceNotFoundException"` contributes nothing (no events, no error
record) while any other exception contributes exactly one error record.
The streaming path (`get_log_events`) makes no such distinction: every
fetch error — including a `ResourceNotFoundException` — increments the
retry counter, is retried up to `max_retries`, and then surfaces a
synthetic error entry. -/
theorem c7_source_not_found :
    (∀ (fmt : Int → String) nowStr
      (respond : BatchRequest → Except String (List Event))
      startTime endTime task_id g e,
      respond (batchRequest startTime endTime task_id g) = Except.error e →
      strContains e "ResourceNotFoundException" = true →
      groupEntries fmt nowStr respond startTime endTime task_id g = []) ∧
    (∀ (fmt : Int → String) nowStr
      (respond : BatchRequest → Except String (List Event))
      startTime endTime task_id g e,
      respond (batchRequest startTime endTime task_id g) = Except.error e →
      strContains e "ResourceNotFoundException" = false →
      groupEntries fmt nowStr respond startTime endTime task_id g =
        [batchErrorEntry nowStr g e]) ∧
    (∀ nowStr g e (s : ReaderState) i L, s.running = true →
      s.retry_count = 0 → s.current_logs = some L →
      (get_log_events nowStr g (fun _ => Except.error e) s i).attempts = 6 ∧
      (get_log_events nowStr g (fun _ => Except.error e) s
        i).state.current_logs = some (L ++ [streamErrorEntry nowStr g e])) := by
  refine ⟨?_, ?_, ?_⟩
  · intro fmt nowStr respond startTime endTime task_id g e hresp hcont
    rw [groupEntries, hresp]
    simp [hcont]
  · intro fmt nowStr respond startTime endTime task_id g e hresp hcont
    rw [groupEntries, hresp]
    simp [hcont]
  · intro nowStr g e s i L hrun hrc hlogs
    rw [get_log_events_exhaustion_cycle hrun hrc]
    exact ⟨rfl, by rw [hlogs]; rfl⟩

/-- **C7 (witness).** The amended behaviour exercised concretely: a
`ResourceNotFoundException` in the batch path adds no entry, a different
error adds one record, and in the streaming path a
`ResourceNotFoundException` is retried six times and surfaces an error
entry. -/
theorem c7_source_not_found_witness :
    groupEntries (fun _ => "") "t"
      (fun _ => Except.error "An error occurred (ResourceNotFoundException)")
      0 1 none "/aws/lambda/adt-dev-PortfolioManagerAgent" = [] ∧
    groupEntries (fun _ => "") "t" (fun _ => Except.error "AccessDenied")
      0 1 none "/aws/lambda/adt-dev-PortfolioManagerAgent" =
      [batchErrorEntry "t" "/aws/lambda/adt-dev-PortfolioManagerAgent"
        "AccessDenied"] ∧
    (get_log_events "t" "g"
      (fun _ => Except.error "ResourceNotFoundException")
      { seen_events := [], retry_count := 0, current_logs := some [],
        running := true } 0).attempts = 6 :=
  ⟨c7_source_not_found.1 (fun _ => "") "t"
    (fun _ => Except.error "An error occurred (ResourceNotFoundException)")
    0 1 none "/aws/lambda/adt-dev-PortfolioManagerAgent"
    "An error occurred (ResourceNotFoundException)" rfl (by decide),
   c7_source_not_found.2.1 (fun _ => "") "t"
    (fun _ => Except.error "AccessDenied")
    0 1 none "/aws/lambda/adt-dev-PortfolioManagerAgent" "AccessDenied"
    rfl (by decide),
   (c7_source_not_found.2.2 "t" "g" "ResourceNotFoundException"
    { seen_events := [], retry_count := 0, current_logs := some [],
      running := true } 0 [] rfl rfl rfl).1⟩

/-- **C7 (counterexample).** In the continuous streaming path a
"source not found" error is *not* treated as zero events: a fetch that
always raises `ResourceNotFoundException` is retried (6 attempts) and
produces a synthetic error entry, contrary to the claim that it produces
no error entry and no retry in both paths. -/
theorem c7_streaming_rnf_counterexample :
    (get_log_events "t" "g"
        (fun _ => Except.error "ResourceNotFoundException")
        { seen_events := [], retry_count := 0, current_logs := some [],
          running := true } 0).attempts = 6 ∧
    (get_log_events "t" "g"
        (fun _ => Except.error "ResourceNotFoundException")
        { seen_events := [], retry_count := 0, current_logs := some [],
          running := true } 0).state.current_logs =
      some [streamErrorEntry "t" "g" "ResourceNotFoundException"] ∧
    strContains "ResourceNotFoundException" "ResourceNotFoundException" =
      true ∧ (6 : ℕ) ≠ 0 := by
  rw [get_log_events_exhaustion_cycle rfl rfl]
  exact ⟨rfl, rfl, by decide, by norm_num⟩

/-! ### Batch-path lemmas -/

theorem insertByTs_perm (e : LogEntry) (l : List LogEntry) :
    (insertByTs e l).Perm (e :: l) := by
  induction l with
  | nil => exact List.Perm.refl _
  | cons x xs ih =>
    rw [insertByTs]
    by_cases h : pyStrLt e.timestamp x.timestamp = true
    · rw [if_pos h]
    · rw [if_neg h]
      exact (List.Perm.cons x ih).trans (List.Perm.swap e x xs)

theorem sortByTs_perm (l : List LogEntry) : (sortByTs l).Perm l := by
  induction l with
  | nil => exact List.Perm.refl _
  | cons x xs ih =>
    rw [sortByTs, List.foldr_cons]
    exact (insertByTs_perm x _).trans (List.Perm.cons x ih)

theorem groupEntries_length_le (fmt : Int → String) (nowStr : String)
    (respond : BatchRequest → Except String (List Event))
    (startTime endTime : Int) (task_id : Option String) (g : String)
    (hlim : ∀ (req : BatchRequest) (evs : List Event),
      respond req = Except.ok evs → evs.length ≤ req.limit) :
    (groupEntries fmt nowStr respond startTime endTime task_id g).length
      ≤ 100 := by
  rw [groupEntries]
  cases hresp : respond (batchRequest startTime endTime task_id g) with
  | ok evs =>
    rw [List.length_map]
    exact hlim _ _ hresp
  | error e =>
    by_cases hc : strContains e "ResourceNotFoundException" = true
    · simp [hc]
    · simp [hc]

/-- **C10.** Every `filter_log_events` request issued by
`fetch_recent_logs` carries `limit = 100`, so — given that the remote
honours the limit — each of the four log groups contributes at most 100
entries to one call, and the call's returned new-entry count is at most
400, regardless of how many matching events exist in the window. -/
theorem c10_batch_request_limit :
    (∀ app env startTime endTime task_id,
      ∀ r ∈ batchRequests app env startTime endTime task_id,
        r.limit = 100) ∧
    (∀ (fmt : Int → String) nowStr app env
      (respond : BatchRequest → Except String (List Event))
      (startTime0 : Option Int) endTime task_id
      (current_logs : List LogEntry),
      (∀ (req : BatchRequest) (evs : List Event),
        respond req = Except.ok evs → evs.length ≤ req.limit) →
      (∀ g ∈ logGroups app env,
        (groupEntries fmt nowStr respond
          (startTime0.getD (endTime - 5 * 60 * 1000)) endTime task_id
          g).length ≤ 100) ∧
      (fetch_recent_logs fmt nowStr app env respond startTime0 endTime
        task_id current_logs).ret ≤ 400) := by
  constructor
  · intro app env startTime endTime task_id r hr
    obtain ⟨g, _, rfl⟩ := List.mem_map.1 hr
    rfl
  · intro fmt nowStr app env respond startTime0 endTime task_id
      current_logs hlim
    constructor
    · intro g _
      exact groupEntries_length_le fmt nowStr respond _ endTime task_id g hlim
    · have hlen : ∀ g, (groupEntries fmt nowStr respond
          (startTime0.getD (endTime - 5 * 60 * 1000)) endTime task_id
          g).length ≤ 100 :=
        fun g => groupEntries_length_le fmt nowStr respond _ endTime task_id
          g hlim
      rw [fetch_recent_logs]
      simp only
      have hfil : ∀ (p : LogEntry → Bool) (l : List LogEntry),
          (l.filter p).length ≤ l.length := fun p l => List.length_filter_le p l
      refine le_trans (hfil _ _) ?_
      rw [(sortByTs_perm _).length_eq]
      simp only [logGroups, List.flatMap_cons, List.flatMap_nil,
        List.append_nil, List.length_append]
      have h1 := hlen ("/aws/lambda/" ++ app ++ "-" ++ env ++
        "-PortfolioManagerAgent")
      have h2 := hlen ("/aws/lambda/" ++ app ++ "-" ++ env ++
        "-MarketAnalysisAgent")
      have h3 := hlen ("/aws/lambda/" ++ app ++ "-" ++ env ++
        "-RiskAssessmentAgent")
      have h4 := hlen ("/aws/lambda/" ++ app ++ "-" ++ env ++
        "-TradeExecutionAgent")
      omega

/-- **C10 (witness).** The limit facts at concrete inputs: the first
request of a concrete call has `limit = 100`, and with a remote returning
no events the call adds at most 400 entries. -/
theorem c10_batch_request_limit_witness :
    (∀ r ∈ batchRequests "adt" "dev" 0 1 none, r.limit = 100) ∧
    (fetch_recent_logs (fun _ => "") "t" "adt" "dev"
      (fun _ => Except.ok []) (some 0) 1 none []).ret ≤ 400 :=
  ⟨c10_batch_request_limit.1 "adt" "dev" 0 1 none,
   (c10_batch_request_limit.2 (fun _ => "") "t" "adt" "dev"
     (fun _ => Except.ok []) (some 0) 1 none []
     (fun req evs h => by
       cases h
       exact Nat.zero_le _)).2⟩

/-- `fetch_recent_logs` written out without the intermediate `let`s. -/
theorem fetch_recent_logs_eq (fmt : Int → String) (nowStr app env : String)
    (respond : BatchRequest → Except String (List Event))
    (startTime0 : Option Int) (endTime : Int) (task_id : Option String)
    (cur : List LogEntry) :
    fetch_recent_logs fmt nowStr app env respond startTime0 endTime task_id
        cur =
      { current_logs := truncate_current_logs (cur ++
          (sortByTs ((logGroups app env).flatMap (groupEntries fmt nowStr
            respond (startTime0.getD (endTime - 5 * 60 * 1000)) endTime
            task_id))).filter
            (fun l => !((cur.map (fun l => l.full_text)).contains
              l.full_text))),
        ret := ((sortByTs ((logGroups app env).flatMap (groupEntries fmt
          nowStr respond (startTime0.getD (endTime - 5 * 60 * 1000)) endTime
          task_id))).filter
            (fun l => !((cur.map (fun l => l.full_text)).contains
              l.full_text))).length } := rfl

/-- **C6 (amended).** Calling `fetch_recent_logs` twice with the same
window and filter, when every remote response succeeds with the same
events both times, yields a second-call count of 0 — *provided* the first
call's append does not overflow the 1000-entry cap (no truncation occurs
between the calls).  (The counterexample shows the unrestricted claim
fails when truncation evicts the entry that had caused a candidate to be
rejected.) -/
theorem c6_batch_idempotence (fmt : Int → String) (now1 now2 app env : String)
    (respond : BatchRequest → Except String (List Event))
    (startTime0 : Option Int) (endTime : Int) (task_id : Option String)
    (S0 : List LogEntry)
    (hok : ∀ req : BatchRequest, ∃ evs, respond req = Except.ok evs)
    (hcap : S0.length + (fetch_recent_logs fmt now1 app env respond
      startTime0 endTime task_id S0).ret ≤ 1000) :
    (fetch_recent_logs fmt now2 app env respond startTime0 endTime task_id
      (fetch_recent_logs fmt now1 app env respond startTime0 endTime
        task_id S0).current_logs).ret = 0 := by
  have hfun : groupEntries fmt now2 respond
      (startTime0.getD (endTime - 5 * 60 * 1000)) endTime task_id =
      groupEntries fmt now1 respond
        (startTime0.getD (endTime - 5 * 60 * 1000)) endTime task_id := by
    funext g
    obtain ⟨evs, hev⟩ := hok (batchRequest
      (startTime0.getD (endTime - 5 * 60 * 1000)) endTime task_id g)
    rw [groupEntries, groupEntries, hev]
  rw [fetch_recent_logs_eq fmt now1, fetch_recent_logs_eq fmt now2,
    hfun] at *
  set N := sortByTs ((logGroups app env).flatMap (groupEntries fmt now1
    respond (startTime0.getD (endTime - 5 * 60 * 1000)) endTime task_id))
    with hN
  set u1 := N.filter
    (fun l => !((S0.map (fun l => l.full_text)).contains l.full_text))
    with hu1
  have hlen : ¬ 1000 < (S0 ++ u1).length := by
    rw [List.length_append]
    simp only at hcap
    omega
  simp only [truncate_current_logs, if_neg hlen]
  have hempty : (N.filter (fun l =>
      !(((S0 ++ u1).map (fun l => l.full_text)).contains l.full_text))) =
      [] := by
    rw [List.filter_eq_nil_iff]
    intro c hc
    simp only [Bool.not_eq_true', Bool.not_eq_false]
    rw [show ((S0 ++ u1).map (fun l => l.full_text)).contains c.full_text =
        ((S0 ++ u1).map (fun l => l.full_text)).elem c.full_text from rfl,
      List.elem_iff, List.map_append]
    by_cases hmem : c.full_text ∈ S0.map (fun l => l.full_text)
    · exact List.mem_append_left _ hmem
    · refine List.mem_append_right _ ?_
      have hcu : c ∈ u1 := by
        rw [hu1, List.mem_filter]
        refine ⟨hc, ?_⟩
        simp only [Bool.not_eq_true']
        cases helem : (S0.map (fun l => l.full_text)).contains c.full_text
        · rfl
        · exact absurd (List.elem_iff.1 helem) hmem
      exact List.mem_map_of_mem (fun l : LogEntry => l.full_text) hcu
  simp only [hempty, List.length_nil]

/-- **C6 (witness).** Idempotence under the no-truncation proviso at a
concrete instance: empty session list, remote returning no events. -/
theorem c6_batch_idempotence_witness :
    (fetch_recent_logs (fun _ => "") "t2" "adt" "dev" (fun _ => Except.ok [])
      (some 0) 1 none
      (fetch_recent_logs (fun _ => "") "t1" "adt" "dev"
        (fun _ => Except.ok []) (some 0) 1 none []).current_logs).ret = 0 :=
  c6_batch_idempotence (fun _ => "") "t1" "t2" "adt" "dev"
    (fun _ => Except.ok []) (some 0) 1 none []
    (fun _ => ⟨[], rfl⟩) (by decide)

/-- **C6 (counterexample).** Without the no-truncation proviso the claim
is false: the session list starts with 1000 entries whose oldest's
rendered line coincides with one remote event's line.  The first call adds
one new entry, truncation to the last 1000 then evicts that oldest entry,
so the second call — same window, same remote events, nothing new — counts
1 new entry instead of 0. -/
theorem c6_second_call_counterexample :
    (fetch_recent_logs (fun t => toString t) "t" "adt" "dev"
      (fun req =>
        if req.logGroupName = "/aws/lambda/adt-dev-PortfolioManagerAgent"
        then Except.ok [⟨1, "c"⟩, ⟨1, "a"⟩] else Except.ok [])
      (some 0) 1 none
      ((fetch_recent_logs (fun t => toString t) "t" "adt" "dev"
        (fun req =>
          if req.logGroupName = "/aws/lambda/adt-dev-PortfolioManagerAgent"
          then Except.ok [⟨1, "c"⟩, ⟨1, "a"⟩] else Except.ok [])
        (some 0) 1 none
        (⟨"", "", "", "[1] [adt-dev-PortfolioManagerAgent] a"⟩ ::
          List.replicate 999 ⟨"", "", "", "b"⟩)).current_logs)).ret = 1 ∧
    (1 : ℕ) ≠ 0 := by
  constructor
  · set_option maxRecDepth 100000 in decide
  · norm_num

/-! ### Buffer truncation lemmas -/

theorem lastN_eq_reverse_take (n : ℕ) (l : List α) :
    lastN n l = (l.reverse.take n).reverse :=
  List.rtake_eq_reverse_take_reverse l n

theorem lastN_length_le (n : ℕ) (l : List α) : (lastN n l).length ≤ n := by
  simp only [lastN, List.length_drop]; omega

theorem lastN_of_length_le {n : ℕ} {l : List α} (h : l.length ≤ n) :
    lastN n l = l := by
  simp only [lastN, Nat.sub_eq_zero_of_le h, List.drop_zero]

theorem lastN_append_lastN (n : ℕ) (a b : List α) :
    lastN n (lastN n a ++ b) = lastN n (a ++ b) := by
  rw [lastN_eq_reverse_take n a, lastN_eq_reverse_take, lastN_eq_reverse_take,
    List.reverse_append, List.reverse_append, List.reverse_reverse,
    List.take_append_eq_append_take, List.take_append_eq_append_take,
    List.take_take, Nat.min_eq_left (Nat.sub_le _ _)]

theorem update_logs_display_step_eq_lastN (b : List LogEntry) (e : LogEntry) :
    update_logs_display_step b e = lastN 200 (b ++ [e]) := by
  by_cases h : 200 < (b ++ [e]).length
  · simp only [update_logs_display_step, lastN, if_pos h]
  · simp only [update_logs_display_step, lastN, if_neg h,
      Nat.sub_eq_zero_of_le (le_of_not_lt h), List.drop_zero]

theorem truncate_current_logs_eq_lastN (l : List LogEntry) :
    truncate_current_logs l = lastN 1000 l := by
  by_cases h : 1000 < l.length
  · simp only [truncate_current_logs, lastN, if_pos h]
  · simp only [truncate_current_logs, lastN, if_neg h,
      Nat.sub_eq_zero_of_le (le_of_not_lt h), List.drop_zero]

theorem foldl_update_logs_display_step (es : List LogEntry) :
    ∀ b : List LogEntry, b.length ≤ 200 →
      es.foldl update_logs_display_step b = lastN 200 (b ++ es) := by
  induction es with
  | nil => intro b hb; rw [List.foldl_nil, List.append_nil, lastN_of_length_le hb]
  | cons e es ih =>
    intro b hb
    have hstep : update_logs_display_step b e = lastN 200 (b ++ [e]) :=
      update_logs_display_step_eq_lastN b e
    have hlen : (update_logs_display_step b e).length ≤ 200 := by
      rw [hstep]; exact lastN_length_le _ _
    rw [List.foldl_cons, ih _ hlen, hstep, lastN_append_lastN,
      List.append_assoc, List.singleton_append]

theorem foldl_truncate_batches (bs : List (List LogEntry)) :
    ∀ b : List LogEntry, b.length ≤ 1000 →
      bs.foldl (fun acc xs => truncate_current_logs (acc ++ xs)) b =
        lastN 1000 (b ++ bs.flatten) := by
  induction bs with
  | nil => intro b hb; rw [List.foldl_nil, List.flatten_nil, List.append_nil,
      lastN_of_length_le hb]
  | cons xs bs ih =>
    intro b hb
    have hstep : truncate_current_logs (b ++ xs) = lastN 1000 (b ++ xs) :=
      truncate_current_logs_eq_lastN (b ++ xs)
    have hlen : (truncate_current_logs (b ++ xs)).length ≤ 1000 := by
      rw [hstep]; exact lastN_length_le _ _
    rw [List.foldl_cons, ih _ hlen, hstep, lastN_append_lastN,
      List.flatten_cons, List.append_assoc]

/-- **C2.** For every sequence of appends, the continuous-mode buffer
(`logs_buffer` updated by `update_logs_display`, capacity 200) and the
batch-mode session list (`st.session_state.current_logs` truncated by
`fetch_recent_logs`, capacity 1000) never exceed their capacity after the
post-append truncation, and the retained entries are exactly the most
recent capacity-many appended entries in arrival order (FIFO eviction from
the front). -/
theorem c2_buffer_capacity_fifo :
    (∀ es : List LogEntry,
      (es.foldl update_logs_display_step []).length ≤ 200 ∧
        es.foldl update_logs_display_step [] = lastN 200 es) ∧
    (∀ bs : List (List LogEntry),
      (bs.foldl (fun acc xs => truncate_current_logs (acc ++ xs)) []).length
          ≤ 1000 ∧
        bs.foldl (fun acc xs => truncate_current_logs (acc ++ xs)) [] =
          lastN 1000 bs.flatten) := by
  constructor
  · intro es
    have h := foldl_update_logs_display_step es [] (by simp)
    rw [List.nil_append] at h
    exact ⟨h ▸ lastN_length_le _ _, h⟩
  · intro bs
    have h := foldl_truncate_batches bs [] (by simp)
    rw [List.nil_append] at h
    exact ⟨h ▸ lastN_length_le _ _, h⟩

end StreamlitApp
